import Mathlib

/-
Verification of the scheduler service (NestJS webhook job scheduler).
The model is a shallow embedding of JobRunnerService from
src/scheduler (job-runner logic), the job entity, and the in-process
execution queue and timer registry.
-/

namespace Scheduler

/-- Job type column: oneoff or recurring (entities/job.entity.ts, JobType). -/
inductive JobType
  | oneoff
  | recurring
deriving Repr, DecidableEq

/-- Job status column (entities/job.entity.ts, JobStatus). -/
inductive JobStatus
  | scheduled
  | running
  | completed
  | failed
  | paused
deriving Repr, DecidableEq

/-- Retry policy stored in the retries json column (RetriesDto): every
field optional, defaults applied in JobRunnerService.execute. -/
structure RetryPolicy where
  enabled : Option Bool
  max_attempts : Option Nat
  retryable_statuses : Option (List Nat)
deriving Repr, DecidableEq

/-- Persistent job record, restricted to the fields the runner reads and
writes (JobEntity).  Timestamps in scheduling.execute_at are modelled as
integer epoch milliseconds (the value of new Date(x).getTime()). -/
structure Job where
  id : String
  type : JobType
  status : JobStatus
  attempt_count : Nat
  last_error : Option String
  retries : Option RetryPolicy
  execute_at : Option Int
  cron : Option String
deriving Repr, DecidableEq

/-- Outcome of the axios call in JobRunnerService.execute: either a
response with some status (validateStatus always true, so any status is
delivered as a response), or a thrown transport error with a message. -/
inductive HttpOutcome
  | response (status : Nat)
  | transportError (msg : String)
deriving Repr, DecidableEq

/-- The responseStatus variable of execute: initialised to 0 and set to
res.status only when a response arrives. -/
def responseStatusOf : HttpOutcome → Nat
  | HttpOutcome.response s => s
  | HttpOutcome.transportError _ => 0

/-- The errorMessage variable of execute: null unless the request threw. -/
def errorMessageOf : HttpOutcome → Option String
  | HttpOutcome.response _ => none
  | HttpOutcome.transportError m => some m

/-- Result of one call to execute: the sequence of repo.save snapshots in
order, and the retry timer armed (map key and delay in ms), if any.
The retry timer callback re-submits the job id to the execution queue. -/
structure ExecOutcome where
  saves : List Job
  retryTimer : Option (String × Nat)
deriving Repr, DecidableEq

/-- Step 1 of the failure flow: the job as first persisted by execute,
with status set to running and attempt_count incremented. -/
def runJob (job : Job) : Job :=
  { job with status := JobStatus.running, attempt_count := job.attempt_count + 1 }

/-- The job persisted on success: last_error cleared, status completed
for a oneoff job and scheduled for a recurring one, attempt_count 0. -/
def successJob (job : Job) : Job :=
  { runJob job with
      last_error := none,
      status := if job.type = JobType.oneoff then JobStatus.completed else JobStatus.scheduled,
      attempt_count := 0 }

/-- The last_error string written on failure: the transport error message
when the request threw, otherwise the string status:code. -/
def failMsg (out : HttpOutcome) : String :=
  match errorMessageOf out with
  | some m => m
  | none => "status:" ++ toString (responseStatusOf out)

/-- The job persisted right after a failure (before any retry decision):
running snapshot with last_error filled in. -/
def failSaveJob (job : Job) (out : HttpOutcome) : Job :=
  { runJob job with last_error := some (failMsg out) }

/-- Retry eligibility test of execute: enabled flag (default false),
attempt_count after increment below max_attempts (default 0), and the
failure was a transport error or the status is in retryable_statuses. -/
def retryEligible (job : Job) (out : HttpOutcome) : Bool :=
  let retries := job.retries.getD ⟨none, none, none⟩
  let enabled := retries.enabled.getD false
  let maxAttempts := retries.max_attempts.getD 0
  let retryable := retries.retryable_statuses.getD []
  enabled && decide (job.attempt_count + 1 < maxAttempts)
    && ((errorMessageOf out).isSome || retryable.contains (responseStatusOf out))

/-- Timer map key for the retry armed after a failed attempt: the string
id:retry:attempt, with attempt the incremented attempt_count. -/
def retryKey (job : Job) : String :=
  job.id ++ ":retry:" ++ toString (job.attempt_count + 1)

/-- Retry delay in ms: 2 ^ attempt * 1000 plus the sampled jitter, with
attempt the incremented attempt_count.  The jitter value produced by
Math.floor(Math.random() * 1000) is passed in as a parameter. -/
def retryDelay (job : Job) (jitter : Nat) : Nat :=
  2 ^ (job.attempt_count + 1) * 1000 + jitter

/-- JobRunnerService.execute, as a function of the stored job (findOneBy
result), the HTTP outcome of the axios call, and the sampled jitter.
Mirrors the source flow: missing job or status running is a no-op with
no save; otherwise the running snapshot is saved, the outcome is
classified as success exactly when 0 < status < 400, the success branch
saves successJob, the failure branch saves failSaveJob and then either
arms a retry timer (leaving the saved status untouched) or saves a third
snapshot with status failed. -/
def execute (stored : Option Job) (out : HttpOutcome) (jitter : Nat) : ExecOutcome :=
  match stored with
  | none => ⟨[], none⟩
  | some job =>
    if job.status = JobStatus.running then ⟨[], none⟩
    else if 0 < responseStatusOf out ∧ responseStatusOf out < 400 then
      ⟨[runJob job, successJob job], none⟩
    else if retryEligible job out then
      ⟨[runJob job, failSaveJob job out], some (retryKey job, retryDelay job jitter)⟩
    else
      ⟨[runJob job, failSaveJob job out, { failSaveJob job out with status := JobStatus.failed }], none⟩

/-- Success classification as the spec words it: a response was received
with status in the interval from 1 inclusive to 400 exclusive. -/
def specSuccess (out : HttpOutcome) : Prop :=
  ∃ s, out = HttpOutcome.response s ∧ 1 ≤ s ∧ s < 400

/-- Concrete job used to evaluate the retry path: retries enabled,
max_attempts 3, retryable statuses containing 500. -/
def c1job : Job :=
  { id := "j1", type := JobType.oneoff, status := JobStatus.scheduled,
    attempt_count := 0, last_error := none,
    retries := some ⟨some true, some 3, some [500]⟩,
    execute_at := none, cron := none }

/-- Concrete job used to evaluate retry exhaustion: retries enabled,
max_attempts 2, retryable statuses containing 503. -/
def c3job : Job :=
  { id := "j3", type := JobType.oneoff, status := JobStatus.scheduled,
    attempt_count := 0, last_error := none,
    retries := some ⟨some true, some 2, some [503]⟩,
    execute_at := none, cron := none }

/-- Concrete job with status running, for the duplicate-trigger no-op. -/
def c5job : Job :=
  { id := "j5", type := JobType.recurring, status := JobStatus.running,
    attempt_count := 2, last_error := none, retries := none,
    execute_at := none, cron := some "* * * * *" }

/-- Concrete job with no retry policy, for the straight-to-failed path. -/
def c6job : Job :=
  { id := "j6", type := JobType.oneoff, status := JobStatus.scheduled,
    attempt_count := 0, last_error := none, retries := none,
    execute_at := none, cron := none }

/-- Concrete recurring job with status scheduled, for the success path. -/
def c4wjob : Job :=
  { id := "j4", type := JobType.recurring, status := JobStatus.scheduled,
    attempt_count := 3, last_error := some "status:500",
    retries := none, execute_at := none, cron := some "* * * * *" }

/-- C1: on a retry-eligible failure the code arms the retry timer with
the right key and delay and keeps attempt_count, but the job is
persisted with status running, not scheduled as the claim states; the
armed retry then no-ops on the running guard when it fires. -/
theorem c1_retry_leaves_running_and_blocks :
    execute (some c1job) (HttpOutcome.response 500) 0
      = ⟨[runJob c1job, failSaveJob c1job (HttpOutcome.response 500)],
         some ("j1:retry:1", 2000)⟩
    ∧ (failSaveJob c1job (HttpOutcome.response 500)).status = JobStatus.running
    ∧ (failSaveJob c1job (HttpOutcome.response 500)).attempt_count = 1
    ∧ execute (some (failSaveJob c1job (HttpOutcome.response 500)))
        (HttpOutcome.response 500) 0 = ⟨[], none⟩ := by
  decide

/-- C3: with max_attempts 2 and a permanently 503 target, the first
failed attempt arms a retry with delay 2 ^ 1 * 1000 + jitter (jitter 0
here) but persists status running; the retry invocation is then a no-op,
so no second attempt happens and the job never transitions to failed. -/
theorem c3_retry_streak_never_reaches_failed :
    (execute (some c3job) (HttpOutcome.response 503) 0).retryTimer
      = some ("j3:retry:1", 2 ^ 1 * 1000 + 0)
    ∧ (execute (some c3job) (HttpOutcome.response 503) 0).saves.map Job.status
      = [JobStatus.running, JobStatus.running]
    ∧ execute (some (failSaveJob c3job (HttpOutcome.response 503)))
        (HttpOutcome.response 503) 0 = ⟨[], none⟩ := by
  decide

/-- C4: an attempt is classified as success exactly when a response was
received with status in the interval from 1 to 399, and on success the
executor persists the running snapshot and then the job with last_error
cleared, status completed for oneoff and scheduled for recurring, and
attempt_count reset to 0, arming no retry timer. -/
theorem c4_success_classification (job : Job) (out : HttpOutcome) (jitter : Nat)
    (h : job.status ≠ JobStatus.running) :
    ((0 < responseStatusOf out ∧ responseStatusOf out < 400) ↔ specSuccess out)
    ∧ (specSuccess out →
        execute (some job) out jitter = ⟨[runJob job, successJob job], none⟩) := by
  have hiff : (0 < responseStatusOf out ∧ responseStatusOf out < 400) ↔ specSuccess out := by
    cases out with
    | response s =>
        simp only [specSuccess, responseStatusOf, HttpOutcome.response.injEq]
        constructor
        · intro hc; exact ⟨s, rfl, hc.1, hc.2⟩
        · rintro ⟨s', hEq, h1, h2⟩; cases hEq; exact ⟨h1, h2⟩
    | transportError m =>
        simp [specSuccess, responseStatusOf]
  refine ⟨hiff, fun hs => ?_⟩
  have hc : 0 < responseStatusOf out ∧ responseStatusOf out < 400 := hiff.mpr hs
  unfold execute
  dsimp only
  rw [if_neg h, if_pos hc]

/-- Witness for C4 at a concrete recurring job and a 200 response. -/
theorem c4_success_classification_witness :
    execute (some c4wjob) (HttpOutcome.response 200) 0
      = ⟨[runJob c4wjob, successJob c4wjob], none⟩ :=
  (c4_success_classification c4wjob (HttpOutcome.response 200) 0 (by decide)).2
    ⟨200, rfl, by decide, by decide⟩

/-- C5: execute is a no-op, with no save and no timer, both when the id
is absent from the store and when the stored status is running. -/
theorem c5_execute_noop (job : Job) (out : HttpOutcome) (jitter : Nat)
    (h : job.status = JobStatus.running) :
    execute none out jitter = ⟨[], none⟩
    ∧ execute (some job) out jitter = ⟨[], none⟩ := by
  refine ⟨rfl, ?_⟩
  unfold execute
  dsimp only
  rw [if_pos h]

/-- Witness for C5 at a concrete running job. -/
theorem c5_execute_noop_witness :
    execute none (HttpOutcome.response 200) 0 = ⟨[], none⟩
    ∧ execute (some c5job) (HttpOutcome.response 200) 0 = ⟨[], none⟩ :=
  c5_execute_noop c5job (HttpOutcome.response 200) 0 rfl

/-- C6: with the retry policy disabled or unset, a single failed attempt
persists the running snapshot, the failure snapshot, and finally the job
with status failed, arming no retry timer. -/
theorem c6_no_retry_straight_to_failed (job : Job) (out : HttpOutcome) (jitter : Nat)
    (h : job.status ≠ JobStatus.running)
    (hf : ¬(0 < responseStatusOf out ∧ responseStatusOf out < 400))
    (he : ((job.retries.getD ⟨none, none, none⟩).enabled.getD false) = false) :
    execute (some job) out jitter
      = ⟨[runJob job, failSaveJob job out,
          { failSaveJob job out with status := JobStatus.failed }], none⟩ := by
  have hre : retryEligible job out = false := by
    simp [retryEligible, he]
  unfold execute
  dsimp only
  rw [if_neg h, if_neg hf, if_neg (by simp [hre])]

/-- Witness for C6 at a concrete job without a retry policy and a 500
response. -/
theorem c6_no_retry_straight_to_failed_witness :
    execute (some c6job) (HttpOutcome.response 500) 0
      = ⟨[runJob c6job, failSaveJob c6job (HttpOutcome.response 500),
          { failSaveJob c6job (HttpOutcome.response 500) with status := JobStatus.failed }],
         none⟩ :=
  c6_no_retry_straight_to_failed c6job (HttpOutcome.response 500) 0
    (by decide) (by decide) (by decide)

/-- State of the in-process execution queue of JobRunnerService: the
running counter, the FIFO pending list, and the trace of tasks started
so far (tasks are identified by numbers in the model). -/
structure QState where
  running : Nat
  pending : List Nat
  started : List Nat
deriving Repr, DecidableEq

/-- The concurrency field of JobRunnerService: fixed at 5. -/
def concurrency : Nat := 5

/-- JobRunnerService.enqueue: when fewer than concurrency tasks are
running, increment the counter and start the task at once; otherwise
push it on the back of the pending list. -/
def enqueue (t : Nat) (s : QState) : QState :=
  if s.running < concurrency then
    { s with running := s.running + 1, started := s.started ++ [t] }
  else
    { s with pending := s.pending ++ [t] }

/-- JobRunnerService._taskDone, reached through the finally handler of
every started task, whether its body resolved or threw: decrement the
counter (clamped at 0 like Math.max), then shift the pending list and,
if a task was waiting, re-increment and start it. -/
def taskDone (s : QState) : QState :=
  match s.pending with
  | [] => { s with running := s.running - 1 }
  | t :: rest =>
      { running := s.running - 1 + 1, pending := rest, started := s.started ++ [t] }

/-- Queue events: a submission of a task, or a completion callback. -/
inductive QOp
  | submit (t : Nat)
  | complete
deriving Repr, DecidableEq

/-- One queue event applied to the state. -/
def qstep (s : QState) : QOp → QState
  | QOp.submit t => enqueue t s
  | QOp.complete => taskDone s

/-- Queue state reached from the idle initial state by a sequence of
submissions and completions. -/
def runQ (ops : List QOp) : QState :=
  ops.foldl qstep ⟨0, [], []⟩

lemma qstep_running_le (s : QState) (op : QOp)
    (h : s.running ≤ concurrency) : (qstep s op).running ≤ concurrency := by
  cases op with
  | submit t =>
      by_cases hr : s.running < concurrency
      · simp [qstep, enqueue, hr]; omega
      · simp [qstep, enqueue, hr]; omega
  | complete =>
      cases hp : s.pending with
      | nil => simp [qstep, taskDone, hp, concurrency] at *; omega
      | cons t rest => simp [qstep, taskDone, hp, concurrency] at *; omega

lemma foldl_qstep_running_le (ops : List QOp) :
    ∀ s : QState, s.running ≤ concurrency →
      (ops.foldl qstep s).running ≤ concurrency := by
  induction ops with
  | nil => intro s h; simpa using h
  | cons op rest ih =>
      intro s h
      simpa using ih (qstep s op) (qstep_running_le s op h)

/-- C7: from the idle state, no event sequence ever pushes the running
counter above concurrency (5); a submission below the ceiling starts the
task immediately, a submission at the ceiling appends it to the back of
the pending list, and every completion pops the front pending task (if
any) and starts it, so pending tasks start in submission order. -/
theorem c7_queue_bound_and_fifo :
    (∀ ops : List QOp, (runQ ops).running ≤ concurrency)
    ∧ (∀ (s : QState) (t : Nat), s.running < concurrency →
        enqueue t s = { s with running := s.running + 1, started := s.started ++ [t] })
    ∧ (∀ (s : QState) (t : Nat), concurrency ≤ s.running →
        enqueue t s = { s with pending := s.pending ++ [t] })
    ∧ (∀ s : QState, (taskDone s).started = s.started ++ s.pending.take 1
        ∧ (taskDone s).pending = s.pending.drop 1) := by
  refine ⟨fun ops => foldl_qstep_running_le ops ⟨0, [], []⟩ (by simp [concurrency]), ?_, ?_, ?_⟩
  · intro s t h; simp [enqueue, h]
  · intro s t h; simp [enqueue, Nat.not_lt.mpr h]
  · intro s
    cases hp : s.pending with
    | nil => simp [taskDone, hp]
    | cons t rest => simp [taskDone, hp]

/-- Witness for C7: the bound on a concrete burst of six submissions,
an immediate start below the ceiling, a FIFO append at the ceiling, and
a completion popping the front pending task. -/
theorem c7_queue_bound_and_fifo_witness :
    (runQ [QOp.submit 1, QOp.submit 2, QOp.submit 3, QOp.submit 4, QOp.submit 5,
           QOp.submit 6, QOp.complete]).running ≤ concurrency
    ∧ enqueue 9 ⟨0, [], []⟩ = ⟨1, [], [9]⟩
    ∧ enqueue 9 ⟨5, [7], [1, 2, 3, 4, 5]⟩ = ⟨5, [7, 9], [1, 2, 3, 4, 5]⟩
    ∧ (taskDone ⟨5, [7, 9], []⟩).started = [] ++ [7, 9].take 1
    ∧ (taskDone ⟨5, [7, 9], []⟩).pending = [7, 9].drop 1 :=
  ⟨c7_queue_bound_and_fifo.1 _,
   c7_queue_bound_and_fifo.2.1 ⟨0, [], []⟩ 9 (by decide),
   c7_queue_bound_and_fifo.2.2.1 ⟨5, [7], [1, 2, 3, 4, 5]⟩ 9 (by decide),
   (c7_queue_bound_and_fifo.2.2.2 ⟨5, [7, 9], []⟩).1,
   (c7_queue_bound_and_fifo.2.2.2 ⟨5, [7, 9], []⟩).2⟩

/-- Decision taken by JobRunnerService.scheduleOneOff for a job: skip
(missing execute_at), submit to the execution queue at once with no
timer, register a re-check timer that only re-runs scheduleOneOff, or
register a timer that fires the execution callback after the wait. -/
inductive ArmAction
  | skip
  | fireNow
  | armRecheck (wait : Nat)
  | armTimer (wait : Nat)
deriving Repr, DecidableEq

/-- The MAX_TIMEOUT constant of scheduleOneOff: the largest delay Node
setTimeout can represent, 2 ^ 31 - 1 ms. -/
def MAX_TIMEOUT : Nat := 2147483647

/-- JobRunnerService.scheduleOneOff as the decision it takes at time now
(epoch ms): missing execute_at logs and skips; a due time in the past
with status scheduled enqueues the execution immediately; otherwise
delay is clamped at zero and a re-check timer of min delay MAX_TIMEOUT
is registered when the delay overflows MAX_TIMEOUT, else a single timer
of exactly delay that enqueues the execution. -/
def scheduleOneOff (job : Job) (now : Int) : ArmAction :=
  match job.execute_at with
  | none => ArmAction.skip
  | some runAt =>
    if runAt ≤ now ∧ job.status = JobStatus.scheduled then ArmAction.fireNow
    else
      let delay := (runAt - now).toNat
      if MAX_TIMEOUT < delay then ArmAction.armRecheck (min delay MAX_TIMEOUT)
      else ArmAction.armTimer delay

/-- Absolute time at which the execution callback is finally submitted
to the queue, following the re-check chain of scheduleOneOff: a re-check
timer waits and then re-runs scheduleOneOff on the same job, and a plain
timer fires after its wait.  The fuel bounds the number of re-checks. -/
def fireTime : Nat → Job → Int → Option Int
  | 0, _, _ => none
  | fuel + 1, job, now =>
    match scheduleOneOff job now with
    | ArmAction.skip => none
    | ArmAction.fireNow => some now
    | ArmAction.armTimer d => some (now + d)
    | ArmAction.armRecheck w => fireTime fuel job (now + w)

lemma fireTime_reaches (fuel : Nat) :
    ∀ (job : Job) (runAt now : Int), job.execute_at = some runAt →
      (runAt - now).toNat ≤ fuel * MAX_TIMEOUT + MAX_TIMEOUT →
      fireTime (fuel + 1) job now = some (max now runAt) := by
  induction fuel with
  | zero =>
      intro job runAt now h hle
      simp only [MAX_TIMEOUT] at hle
      simp only [fireTime, scheduleOneOff, h]
      by_cases hfire : runAt ≤ now ∧ job.status = JobStatus.scheduled
      · rw [if_pos hfire]
        have hnow := hfire.1
        show some now = some (max now runAt)
        congr 1
        omega
      · rw [if_neg hfire]
        have hnot : ¬ MAX_TIMEOUT < (runAt - now).toNat := by
          simp only [MAX_TIMEOUT]; omega
        simp only [hnot, if_false]
        show some (now + ((runAt - now).toNat : Int)) = some (max now runAt)
        congr 1
        omega
  | succ n ih =>
      intro job runAt now h hle
      simp only [MAX_TIMEOUT] at hle
      rcases hact : scheduleOneOff job now with _ | _ | w | d
      · exfalso
        simp only [scheduleOneOff, h] at hact
        split_ifs at hact
      · have hcond : runAt ≤ now := by
          simp only [scheduleOneOff, h] at hact
          split_ifs at hact with h1
          exact h1.1
        rw [fireTime, hact]
        dsimp only
        congr 1
        omega
      · have hparts : MAX_TIMEOUT < (runAt - now).toNat ∧ w = MAX_TIMEOUT := by
          simp only [scheduleOneOff, h] at hact
          split_ifs at hact with h1 h2
          injection hact with hw
          exact ⟨h2, by rw [← hw]; exact Nat.min_eq_right (Nat.le_of_lt h2)⟩
        obtain ⟨h2, hw⟩ := hparts
        rw [fireTime, hact]
        dsimp only
        have harith : (runAt - (now + (w : Int))).toNat ≤ n * MAX_TIMEOUT + MAX_TIMEOUT := by
          subst hw
          simp only [MAX_TIMEOUT] at h2 ⊢
          omega
        rw [ih job runAt (now + (w : Int)) h harith]
        congr 1
        subst hw
        simp only [MAX_TIMEOUT] at h2 ⊢
        omega
      · have hd : d = (runAt - now).toNat := by
          simp only [scheduleOneOff, h] at hact
          split_ifs at hact with h1 h2
          injection hact with hd
          exact hd.symm
        rw [fireTime, hact]
        dsimp only
        congr 1
        subst hd
        omega

/-- Concrete oneoff job whose due time is already past while its status
is scheduled: the code fires it at once instead of registering a timer. -/
def c8job : Job :=
  { id := "j8", type := JobType.oneoff, status := JobStatus.scheduled,
    attempt_count := 0, last_error := none, retries := none,
    execute_at := some 0, cron := none }

/-- Counterexample to C8: at now = 5 the computed delay for c8job is 0,
which does not exceed MAX_TIMEOUT, so the claim predicts a single timer
of wait 0; the code instead submits the execution immediately and
registers no timer at all. -/
theorem c8_counterexample :
    scheduleOneOff c8job 5 = ArmAction.fireNow
    ∧ scheduleOneOff c8job 5 ≠ ArmAction.armTimer 0 := by
  decide

/-- C8 as amended: a due time at or before now with status scheduled is
submitted immediately with no timer; in every other case the delay is
max 0 (execute_at - now), a delay above MAX_TIMEOUT registers a re-check
timer of min delay MAX_TIMEOUT, a delay within range registers a single
timer of exactly delay, and the re-check chain finally submits the
execution at the true due time (now plus the full delay). -/
theorem c8_arming_amended (job : Job) (runAt now : Int)
    (h : job.execute_at = some runAt) :
    (runAt ≤ now ∧ job.status = JobStatus.scheduled →
      scheduleOneOff job now = ArmAction.fireNow)
    ∧ (¬(runAt ≤ now ∧ job.status = JobStatus.scheduled) →
        (MAX_TIMEOUT < (runAt - now).toNat →
          scheduleOneOff job now = ArmAction.armRecheck (min (runAt - now).toNat MAX_TIMEOUT))
        ∧ ((runAt - now).toNat ≤ MAX_TIMEOUT →
          scheduleOneOff job now = ArmAction.armTimer (runAt - now).toNat))
    ∧ (∃ fuel, fireTime fuel job now = some (max now runAt)) := by
  refine ⟨?_, ?_, ?_⟩
  · intro hc
    simp only [scheduleOneOff, h]
    rw [if_pos hc]
  · intro hc
    constructor
    · intro hbig
      simp only [scheduleOneOff, h]
      rw [if_neg hc]
      simp only [hbig, if_true]
    · intro hsmall
      simp only [scheduleOneOff, h]
      rw [if_neg hc]
      simp only [Nat.not_lt.mpr hsmall, if_false]
  · refine ⟨(runAt - now).toNat / MAX_TIMEOUT + 1, ?_⟩
    apply fireTime_reaches _ job runAt now h
    simp only [MAX_TIMEOUT]
    omega

/-- Witness for C8 at a due time 3000000000000 ms with now 0 (beyond
MAX_TIMEOUT, exercising the re-check branch) and the chained fire. -/
theorem c8_arming_amended_witness :
    scheduleOneOff { c8job with execute_at := some 3000000000000, status := JobStatus.failed } 0
      = ArmAction.armRecheck (min ((3000000000000 : Int) - 0).toNat MAX_TIMEOUT)
    ∧ (∃ fuel, fireTime fuel
        { c8job with execute_at := some 3000000000000, status := JobStatus.failed } 0
        = some (max 0 3000000000000)) :=
  ⟨((c8_arming_amended _ 3000000000000 0 rfl).2.1 (by decide)).1 (by decide),
   (c8_arming_amended _ 3000000000000 0 rfl).2.2⟩

/-- Concrete oneoff job found with status running and a past due time:
recovery arms a zero-delay timer for it, but the execution no-ops. -/
def c10runningJob : Job :=
  { id := "jx", type := JobType.oneoff, status := JobStatus.running,
    attempt_count := 1, last_error := none, retries := none,
    execute_at := some 0, cron := none }

/-- Counterexample to C10: for a past-due oneoff job whose status is
running (one of the statuses other than scheduled that the claim covers)
the zero-delay timer is registered, but its firing does not execute the
job again: execute is a no-op and attempt_count is not incremented. -/
theorem c10_counterexample :
    scheduleOneOff c10runningJob 5 = ArmAction.armTimer 0
    ∧ execute (some c10runningJob) (HttpOutcome.response 200) 0 = ⟨[], none⟩ := by
  decide

/-- C10 as amended: for every oneoff job with a past due time whose
status is neither scheduled nor running (for example completed or
failed), arming registers a zero-delay timer, and the execution it
submits does run the job again: the first persisted snapshot has status
running and attempt_count incremented. -/
theorem c10_rearm_executes_amended (job : Job) (runAt now : Int)
    (out : HttpOutcome) (jitter : Nat)
    (h : job.execute_at = some runAt) (hpast : runAt ≤ now)
    (hs : job.status ≠ JobStatus.scheduled) (hr : job.status ≠ JobStatus.running) :
    scheduleOneOff job now = ArmAction.armTimer 0
    ∧ (execute (some job) out jitter).saves.head? = some (runJob job)
    ∧ (runJob job).status = JobStatus.running
    ∧ (runJob job).attempt_count = job.attempt_count + 1 := by
  refine ⟨?_, ?_, rfl, rfl⟩
  · simp only [scheduleOneOff, h]
    rw [if_neg (by intro hc; exact hs hc.2)]
    have h0 : (runAt - now).toNat = 0 := by omega
    simp [h0, MAX_TIMEOUT]
  · unfold execute
    dsimp only
    rw [if_neg hr]
    by_cases hsucc : 0 < responseStatusOf out ∧ responseStatusOf out < 400
    · rw [if_pos hsucc]
      rfl
    · rw [if_neg hsucc]
      by_cases hel : retryEligible job out = true
      · rw [if_pos hel]
        rfl
      · rw [if_neg hel]
        rfl

/-- Witness for C10 at a concrete completed oneoff job due in the past,
with a 200 response. -/
theorem c10_rearm_executes_amended_witness :
    scheduleOneOff { c10runningJob with status := JobStatus.completed } 5 = ArmAction.armTimer 0
    ∧ (execute (some { c10runningJob with status := JobStatus.completed })
        (HttpOutcome.response 200) 0).saves.head?
      = some (runJob { c10runningJob with status := JobStatus.completed })
    ∧ (runJob { c10runningJob with status := JobStatus.completed }).status = JobStatus.running
    ∧ (runJob { c10runningJob with status := JobStatus.completed }).attempt_count
      = ({ c10runningJob with status := JobStatus.completed } : Job).attempt_count + 1 :=
  c10_rearm_executes_amended _ 0 5 (HttpOutcome.response 200) 0 rfl
    (by decide) (by decide) (by decide)

/-- Lookup in an association-list model of a javascript Map: the timers
and cronJobs fields of JobRunnerService map string keys to handles,
modelled as numbers. -/
def aget (k : String) : List (String × Nat) → Option Nat
  | [] => none
  | (kk, v) :: rest => if kk = k then some v else aget k rest

/-- Map.set: replace the binding in place when the key is present,
append it otherwise.  It does not cancel the handle it overwrites. -/
def aset (k : String) (v : Nat) : List (String × Nat) → List (String × Nat)
  | [] => [(k, v)]
  | (kk, vv) :: rest => if kk = k then (k, v) :: rest else (kk, vv) :: aset k v rest

/-- Map.delete: drop the binding for the key. -/
def adel (k : String) (m : List (String × Nat)) : List (String × Nat) :=
  m.filter (fun kv => kv.1 != k)

/-- State of the timer and cron registry of JobRunnerService: the timers
and cronJobs maps, plus the live (armed, not yet cancelled or fired)
timeout handles and cron tasks, each tagged with the job id its callback
works on.  nextRef generates fresh handles. -/
structure Reg where
  timers : List (String × Nat)
  crons : List (String × Nat)
  live : List (Nat × String)
  liveCron : List (Nat × String)
  nextRef : Nat
deriving Repr, DecidableEq

/-- Registry at process start: empty maps, nothing live. -/
def initReg : Reg := ⟨[], [], [], [], 0⟩

/-- The timer-registration effect of scheduleOneOff: setTimeout creates
a live handle and timers.set stores it under the job id.  The map entry
a prior arm left under the same id is overwritten, but its handle is
not cleared: it stays live. -/
def armOneOff (id : String) (s : Reg) : Reg :=
  { s with timers := aset id s.nextRef s.timers,
           live := s.live ++ [(s.nextRef, id)],
           nextRef := s.nextRef + 1 }

/-- The cron-registration effect of scheduleRecurring: cron.schedule
creates a live task and cronJobs.set stores it under the job id, again
without stopping any task the overwritten entry pointed to. -/
def armRecurring (id : String) (s : Reg) : Reg :=
  { s with crons := aset id s.nextRef s.crons,
           liveCron := s.liveCron ++ [(s.nextRef, id)],
           nextRef := s.nextRef + 1 }

/-- The timer-registration effect of the retry branch of execute: a live
handle stored under the composite key id:retry:attempt. -/
def armRetry (id : String) (attempt : Nat) (s : Reg) : Reg :=
  { s with timers := aset (id ++ ":retry:" ++ toString attempt) s.nextRef s.timers,
           live := s.live ++ [(s.nextRef, id)],
           nextRef := s.nextRef + 1 }

/-- A timer callback running: it deletes its own map entry and the
handle is spent, hence no longer live. -/
def timerFired (key : String) (s : Reg) : Reg :=
  match aget key s.timers with
  | some t => { s with timers := adel key s.timers,
                       live := s.live.filter (fun lt => lt.1 != t) }
  | none => s

/-- First phase of unscheduleJob: clearTimeout on the handle stored
under the job id, if any, and delete that entry. -/
def clearMainTimer (id : String) (s : Reg) : Reg :=
  match aget id s.timers with
  | some t => { s with timers := adel id s.timers,
                       live := s.live.filter (fun lt => lt.1 != t) }
  | none => s

/-- Second phase of unscheduleJob: sweep every key starting with
id:retry:, clearTimeout its handle and delete the entry. -/
def clearRetryTimers (id : String) (s : Reg) : Reg :=
  let refs := (s.timers.filter (fun kv => kv.1.startsWith (id ++ ":retry:"))).map Prod.snd
  { s with timers := s.timers.filter (fun kv => !(kv.1.startsWith (id ++ ":retry:"))),
           live := s.live.filter (fun lt => !(refs.contains lt.1)) }

/-- Third phase of unscheduleJob: stop the cron task stored under the
job id, if any, and delete that entry. -/
def stopCron (id : String) (s : Reg) : Reg :=
  match aget id s.crons with
  | some c => { s with crons := adel id s.crons,
                       liveCron := s.liveCron.filter (fun lc => lc.1 != c) }
  | none => s

/-- JobRunnerService.unscheduleJob: main timer, then retry timers, then
the cron task. -/
def unscheduleJob (id : String) (s : Reg) : Reg :=
  stopCron id (clearRetryTimers id (clearMainTimer id s))

/-- JobRunnerService.unscheduleAll: clearTimeout every handle reachable
from the timers map and stop every task reachable from the cronJobs
map, then empty both maps (handles leaked out of the maps stay live). -/
def unscheduleAll (s : Reg) : Reg :=
  { s with timers := [], crons := [],
           live := s.live.filter (fun lt => !((s.timers.map Prod.snd).contains lt.1)),
           liveCron := s.liveCron.filter (fun lc => !((s.crons.map Prod.snd).contains lc.1)) }

/-- Registry events generated by the runner. -/
inductive RegOp
  | armOneOff (id : String)
  | armRecurring (id : String)
  | armRetry (id : String) (attempt : Nat)
  | fired (key : String)
  | unschedule (id : String)
  | unscheduleEverything
deriving Repr, DecidableEq

/-- One registry event applied to the state. -/
def applyReg (s : Reg) : RegOp → Reg
  | RegOp.armOneOff id => armOneOff id s
  | RegOp.armRecurring id => armRecurring id s
  | RegOp.armRetry id attempt => armRetry id attempt s
  | RegOp.fired key => timerFired key s
  | RegOp.unschedule id => unscheduleJob id s
  | RegOp.unscheduleEverything => unscheduleAll s

/-- Registry state reached from process start by a sequence of events. -/
def runReg (ops : List RegOp) : Reg :=
  ops.foldl applyReg initReg

lemma keys_aset (k : String) (v : Nat) (m : List (String × Nat)) :
    (aset k v m).map Prod.fst =
      if k ∈ m.map Prod.fst then m.map Prod.fst else m.map Prod.fst ++ [k] := by
  induction m with
  | nil => simp [aset]
  | cons kv rest ih =>
      obtain ⟨kk, vv⟩ := kv
      by_cases hk : kk = k
      · subst hk
        simp [aset]
      · simp only [aset, if_neg hk, List.map_cons, ih]
        by_cases hmem : k ∈ rest.map Prod.fst
        · rw [if_pos hmem, if_pos (by simp [hmem])]
        · rw [if_neg hmem, if_neg (by simp [Ne.symm hk, hmem])]
          simp

lemma nodup_keys_aset (k : String) (v : Nat) (m : List (String × Nat))
    (h : (m.map Prod.fst).Nodup) : ((aset k v m).map Prod.fst).Nodup := by
  rw [keys_aset]
  split_ifs with hm
  · exact h
  · refine List.Nodup.append h (List.nodup_singleton k) ?_
    intro a ha hb
    simp only [List.mem_singleton] at hb
    subst hb
    exact hm ha

lemma nodup_keys_filter (p : String × Nat → Bool) (m : List (String × Nat))
    (h : (m.map Prod.fst).Nodup) : ((m.filter p).map Prod.fst).Nodup :=
  h.sublist (List.Sublist.map Prod.fst (List.filter_sublist m))

/-- Both registry maps keep unique keys. -/
def RegInv (s : Reg) : Prop :=
  (s.timers.map Prod.fst).Nodup ∧ (s.crons.map Prod.fst).Nodup

lemma regInv_clearMainTimer (id : String) (s : Reg) (h : RegInv s) :
    RegInv (clearMainTimer id s) := by
  unfold clearMainTimer
  rcases hg : aget id s.timers with _ | t
  · exact h
  · exact ⟨nodup_keys_filter _ _ h.1, h.2⟩

lemma regInv_clearRetryTimers (id : String) (s : Reg) (h : RegInv s) :
    RegInv (clearRetryTimers id s) :=
  ⟨nodup_keys_filter _ _ h.1, h.2⟩

lemma regInv_stopCron (id : String) (s : Reg) (h : RegInv s) :
    RegInv (stopCron id s) := by
  unfold stopCron
  rcases hg : aget id s.crons with _ | c
  · exact h
  · exact ⟨h.1, nodup_keys_filter _ _ h.2⟩

lemma regInv_applyReg (s : Reg) (op : RegOp) (h : RegInv s) :
    RegInv (applyReg s op) := by
  cases op with
  | armOneOff id => exact ⟨nodup_keys_aset _ _ _ h.1, h.2⟩
  | armRecurring id => exact ⟨h.1, nodup_keys_aset _ _ _ h.2⟩
  | armRetry id attempt => exact ⟨nodup_keys_aset _ _ _ h.1, h.2⟩
  | fired key =>
      show RegInv (timerFired key s)
      unfold timerFired
      rcases hg : aget key s.timers with _ | t
      · exact h
      · exact ⟨nodup_keys_filter _ _ h.1, h.2⟩
  | unschedule id =>
      exact regInv_stopCron _ _ (regInv_clearRetryTimers _ _ (regInv_clearMainTimer _ _ h))
  | unscheduleEverything => exact ⟨List.nodup_nil, List.nodup_nil⟩

lemma regInv_runReg_aux (ops : List RegOp) :
    ∀ s : Reg, RegInv s → RegInv (ops.foldl applyReg s) := by
  induction ops with
  | nil => intro s h; simpa using h
  | cons op rest ih =>
      intro s h
      simpa using ih (applyReg s op) (regInv_applyReg s op h)

/-- Counterexample to C2: arming the same job id twice in a row leaves
two live one-off timers for that id; the second arm overwrote the map
entry (handle 1) but did not disarm the first timer (handle 0), which
stays live and will still fire.  The claim says re-arming first disarms
the prior registration, leaving at most one live timer per id. -/
theorem c2_counterexample :
    ((runReg [RegOp.armOneOff "a", RegOp.armOneOff "a"]).live.filter
        (fun lt => lt.2 == "a")).length = 2
    ∧ (runReg [RegOp.armOneOff "a", RegOp.armOneOff "a"]).live = [(0, "a"), (1, "a")]
    ∧ (runReg [RegOp.armOneOff "a", RegOp.armOneOff "a"]).timers = [("a", 1)] := by
  decide

/-- C2 as amended: the timers and cronJobs maps hold at most one entry
per key in every reachable registry state (a later arm overwrites the
entry), but arming does not disarm the prior registration: arming a job
id adds one live timer (or cron task) for that id and cancels nothing,
so a previously live timer for the same id survives. -/
theorem c2_registry_amended :
    (∀ ops : List RegOp, ((runReg ops).timers.map Prod.fst).Nodup
        ∧ ((runReg ops).crons.map Prod.fst).Nodup)
    ∧ (∀ (s : Reg) (id : String),
        ((armOneOff id s).live.filter (fun lt => lt.2 == id)).length
          = (s.live.filter (fun lt => lt.2 == id)).length + 1
        ∧ ((armRecurring id s).liveCron.filter (fun lc => lc.2 == id)).length
          = (s.liveCron.filter (fun lc => lc.2 == id)).length + 1) := by
  constructor
  · intro ops
    exact regInv_runReg_aux ops initReg ⟨List.nodup_nil, List.nodup_nil⟩
  · intro s id
    constructor
    · simp [armOneOff, List.filter_append]
    · simp [armRecurring, List.filter_append]

lemma aget_eq_none_iff (k : String) (m : List (String × Nat)) :
    aget k m = none ↔ ∀ kv ∈ m, kv.1 ≠ k := by
  induction m with
  | nil => simp [aget]
  | cons kv rest ih =>
      obtain ⟨kk, vv⟩ := kv
      by_cases h : kk = k
      · subst h
        simp [aget]
      · simp [aget, h, ih]

lemma aget_none_of_filter (k : String) (p : String × Nat → Bool)
    (m : List (String × Nat)) (h : aget k m = none) :
    aget k (m.filter p) = none := by
  rw [aget_eq_none_iff] at h ⊢
  intro kv hkv
  exact h kv (List.mem_of_mem_filter hkv)

lemma aget_adel (k : String) (m : List (String × Nat)) :
    aget k (adel k m) = none := by
  rw [aget_eq_none_iff]
  intro kv hkv
  have := List.of_mem_filter hkv
  simpa using this

lemma timers_stopCron (id : String) (s : Reg) :
    (stopCron id s).timers = s.timers := by
  unfold stopCron
  rcases hg : aget id s.crons with _ | c <;> rfl

lemma aget_unscheduleJob_timers (id : String) (s : Reg) :
    aget id (unscheduleJob id s).timers = none := by
  have h1 : aget id (clearMainTimer id s).timers = none := by
    unfold clearMainTimer
    rcases hg : aget id s.timers with _ | t
    · exact hg
    · exact aget_adel id s.timers
  have h2 : aget id (clearRetryTimers id (clearMainTimer id s)).timers = none :=
    aget_none_of_filter _ _ _ h1
  rw [unscheduleJob, timers_stopCron]
  exact h2

lemma mem_unscheduleJob_timers (id : String) (s : Reg) :
    ∀ kv ∈ (unscheduleJob id s).timers,
      kv.1.startsWith (id ++ ":retry:") = false := by
  intro kv hkv
  rw [unscheduleJob, timers_stopCron] at hkv
  have := List.of_mem_filter hkv
  simpa using this

lemma aget_unscheduleJob_crons (id : String) (s : Reg) :
    aget id (unscheduleJob id s).crons = none := by
  rw [unscheduleJob]
  unfold stopCron
  rcases hg : aget id (clearRetryTimers id (clearMainTimer id s)).crons with _ | c
  · exact hg
  · exact aget_adel _ _

/-- C9: after unscheduleJob the job id is gone from the timers map,
no retry key for the id remains, the id is gone from the cronJobs map,
and the operation is idempotent: a second call on any state returns the
state the first call produced, unchanged. -/
theorem c9_disarm_removes_and_idempotent (s : Reg) (id : String) :
    aget id (unscheduleJob id s).timers = none
    ∧ ((unscheduleJob id s).timers.all
        (fun kv => !(kv.1.startsWith (id ++ ":retry:")))) = true
    ∧ aget id (unscheduleJob id s).crons = none
    ∧ unscheduleJob id (unscheduleJob id s) = unscheduleJob id s := by
  refine ⟨aget_unscheduleJob_timers id s, ?_, aget_unscheduleJob_crons id s, ?_⟩
  · rw [List.all_eq_true]
    intro kv hkv
    simp [mem_unscheduleJob_timers id s kv hkv]
  · have e1 : clearMainTimer id (unscheduleJob id s) = unscheduleJob id s := by
      unfold clearMainTimer
      rw [aget_unscheduleJob_timers id s]
    have hnil : (unscheduleJob id s).timers.filter
        (fun kv => kv.1.startsWith (id ++ ":retry:")) = [] := by
      rw [List.filter_eq_nil_iff]
      intro kv hkv
      simp [mem_unscheduleJob_timers id s kv hkv]
    have hself : (unscheduleJob id s).timers.filter
        (fun kv => !(kv.1.startsWith (id ++ ":retry:"))) = (unscheduleJob id s).timers := by
      rw [List.filter_eq_self]
      intro kv hkv
      simp [mem_unscheduleJob_timers id s kv hkv]
    have e2 : clearRetryTimers id (unscheduleJob id s) = unscheduleJob id s := by
      unfold clearRetryTimers
      rw [hnil, hself]
      simp
    have e3 : stopCron id (unscheduleJob id s) = unscheduleJob id s := by
      unfold stopCron
      rw [aget_unscheduleJob_crons id s]
    show stopCron id (clearRetryTimers id (clearMainTimer id (unscheduleJob id s)))
        = unscheduleJob id s
    rw [e1, e2, e3]

end Scheduler
